import Mathlib

set_option maxRecDepth 16384
set_option exponentiation.threshold 4096

/-!
Verification of the Crypto-Trading-Bot core pipeline: a shallow embedding of
`trading_bot/bot/validators.py`, `trading_bot/bot/client.py` and
`trading_bot/bot/orders.py`, followed by theorems settling the spec claims.

Python values are modelled as follows: `str` is `String` (ASCII-faithful;
Python's Unicode `upper`/digit folding outside ASCII is not modelled),
`float` is `PyFloat` (an exact IEEE-754 binary64 value as a rational, plus
infinities and nan), exceptions are `Except`, and dict mutation is explicit
state passing on insertion-ordered association lists.
-/

namespace CryptoBot

/-! ## Python float model: IEEE-754 binary64 values -/

/-- A CPython `float`: nan, a signed infinity, or a finite binary64 value
represented exactly as the rational it denotes (`-0.0` collapses to `0`,
which agrees with every comparison the bot performs). -/
inductive PyFloat where
  | nan : PyFloat
  | inf (neg : Bool) : PyFloat
  | finite (q : ℚ) : PyFloat
deriving DecidableEq, Repr

/-- Python `x <= y` on floats: any comparison with nan is false. -/
def pyLe : PyFloat → PyFloat → Bool
  | .nan, _ => false
  | _, .nan => false
  | .inf a, .inf b => a || !b
  | .inf a, .finite _ => a
  | .finite _, .inf b => !b
  | .finite x, .finite y => decide (x ≤ y)

/-- Python `x > y` on floats: any comparison with nan is false. -/
def pyGt : PyFloat → PyFloat → Bool
  | .nan, _ => false
  | _, .nan => false
  | .inf a, .inf b => !a && b
  | .inf a, .finite _ => !a
  | .finite _, .inf b => b
  | .finite x, .finite y => decide (y < x)

/-- Decimal digit test, ASCII. -/
def isDigitC (c : Char) : Bool := decide ('0' ≤ c) && decide (c ≤ '9')

/-- Whitespace stripped by CPython's float parser (C `isspace`). -/
def isPySpace (c : Char) : Bool :=
  c = ' ' || c = Char.ofNat 9 || c = Char.ofNat 10 || c = Char.ofNat 11 ||
  c = Char.ofNat 12 || c = Char.ofNat 13

/-- ASCII lower-casing of one character (for `inf`/`nan` keyword matching). -/
def asciiLower (c : Char) : Char :=
  if decide ('A' ≤ c) && decide (c ≤ 'Z') then Char.ofNat (c.toNat + 32) else c

/-- Continue a digit run: digits, with `\x5f` underscores allowed only between
two digits (PEP 515, as enforced by CPython's float parser). Returns the
digits read (underscores dropped) and the unconsumed rest, or `none` when an
underscore is misplaced. Entered only after an initial digit. -/
def digRest : List Char → Option (List Char × List Char)
  | [] => some ([], [])
  | '_' :: c :: cs =>
    if isDigitC c then (digRest cs).map (fun p => (c :: p.1, p.2)) else none
  | ['_'] => none
  | c :: cs =>
    if isDigitC c then (digRest cs).map (fun p => (c :: p.1, p.2))
    else some ([], c :: cs)

/-- A digit run that must start with a digit. -/
def digits1 : List Char → Option (List Char × List Char)
  | c :: cs => if isDigitC c then (digRest cs).map (fun p => (c :: p.1, p.2)) else none
  | [] => none

/-- An optional digit run: empty when the next char is not a digit. -/
def digits0 (cs : List Char) : Option (List Char × List Char) :=
  match cs with
  | c :: _ => if isDigitC c then digits1 cs else some ([], cs)
  | [] => some ([], [])

/-- Numeric value of a digit string. -/
def natOfDigits (ds : List Char) : ℕ :=
  ds.foldl (fun acc c => acc * 10 + (c.toNat - 48)) 0

/-- A parsed CPython float literal, before binary rounding: a finite decimal
value (kept exact as a rational), or an `inf`/`nan` keyword. -/
inductive PyLit where
  | num (q : ℚ)
  | infLit
  | nanLit
deriving DecidableEq, Repr

/-- Parse an optional sign, returning `true` for a leading minus. -/
def parseSign : List Char → Bool × List Char
  | '-' :: cs => (true, cs)
  | '+' :: cs => (false, cs)
  | cs => (false, cs)

/-- Parse the body of a float literal after the sign: `inf`, `infinity`,
`nan` (case-insensitive), or `digits[.digits][(e|E)[sign]digits]` with at
least one mantissa digit, consuming the whole input. -/
def parseLitBody (cs : List Char) : Option PyLit :=
  let low := cs.map asciiLower
  if low = "inf".data || low = "infinity".data then some .infLit
  else if low = "nan".data then some .nanLit
  else
    match digits0 cs with
    | none => none
    | some (ip, rest1) =>
      let fracStep : Option (List Char × List Char) :=
        match rest1 with
        | '.' :: cs2 =>
          (if ip = [] then digits1 cs2 else digits0 cs2)
        | _ => some ([], rest1)
      match fracStep with
      | none => none
      | some (fp, rest2) =>
        if ip = [] && fp = [] then none
        else
          let expStep : Option (Int × List Char) :=
            match rest2 with
            | 'e' :: cs3 =>
              let (eneg, cs4) := parseSign cs3
              (digits1 cs4).map (fun p =>
                ((if eneg then -(natOfDigits p.1 : Int) else (natOfDigits p.1 : Int)), p.2))
            | 'E' :: cs3 =>
              let (eneg, cs4) := parseSign cs3
              (digits1 cs4).map (fun p =>
                ((if eneg then -(natOfDigits p.1 : Int) else (natOfDigits p.1 : Int)), p.2))
            | _ => some (0, rest2)
          match expStep with
          | none => none
          | some (ex, rest3) =>
            if rest3 = [] then
              let m : ℕ := natOfDigits (ip ++ fp)
              let e : Int := ex - fp.length
              some (.num (if 0 ≤ e then mkRat (m * 10 ^ e.toNat) 1
                          else mkRat m (10 ^ (-e).toNat)))
            else none

/-- Parse a full CPython float string: strip whitespace, read a sign, read the
literal body. Returns the sign and the exact literal. -/
def pyParseLit (s : String) : Option (Bool × PyLit) :=
  let core := (s.data.dropWhile isPySpace).reverse.dropWhile isPySpace |>.reverse
  let (neg, body) := parseSign core
  (parseLitBody body).map (fun l => (neg, l))

/-- Exact decimal value of a string per the spec's words, when the string
"parses as a finite decimal number": the signed rational of the literal,
`none` for non-numeric input and for `inf`/`nan` keywords. Spec-side
definition used to compare the spec's reading against the code's. -/
def decimalValue (s : String) : Option ℚ :=
  match pyParseLit s with
  | some (neg, .num q) => some (if neg then -q else q)
  | _ => none

/-! ### Exact rounding of a rational to binary64 -/

/-- Does `2 ^ g ≤ a` hold, for a positive rational `a` and integer `g`? -/
def twoPowLe (g : Int) (a : ℚ) : Bool :=
  if 0 ≤ g then decide (a.den * 2 ^ g.toNat ≤ a.num.natAbs)
  else decide (a.den ≤ a.num.natAbs * 2 ^ (-g).toNat)

/-- Fuel-driven floor base-2 logarithm (kernel-reducible, unlike
`Nat.log2`, which is defined by well-founded recursion). -/
def log2Fuel : ℕ → ℕ → ℕ
  | 0, _ => 0
  | fuel + 1, n => if n < 2 then 0 else log2Fuel fuel (n / 2) + 1

/-- Floor base-2 logarithm. -/
def natLog2 (n : ℕ) : ℕ := log2Fuel n n

/-- The binary exponent of a positive rational: the `e` with
`2 ^ (e-1) ≤ a < 2 ^ e`. -/
def ratBinExp (a : ℚ) : Int :=
  let g : Int := (natLog2 a.num.natAbs : Int) - (natLog2 a.den : Int)
  if twoPowLe (g + 1) a then g + 2
  else if twoPowLe g a then g + 1
  else g

/-- Round `num / den` to the nearest natural, ties to even (`den > 0`). -/
def roundHalfEven (num den : ℕ) : ℕ :=
  let q := num / den
  let r := num % den
  if 2 * r < den then q
  else if den < 2 * r then q + 1
  else if q % 2 = 0 then q else q + 1

/-- Round an exact rational to the nearest IEEE-754 binary64 value
(round-to-nearest, ties-to-even), with subnormals, underflow to zero and
overflow to infinity — the semantics of CPython's string-to-float
conversion applied to the exact decimal value. -/
def roundRatToDouble (a : ℚ) : PyFloat :=
  if a = 0 then .finite 0
  else
    let neg := decide (a.num < 0)
    let m : ℚ := if a.num < 0 then -a else a
    let e := ratBinExp m
    let t : Int := max (e - 53) (-1074)
    let num : ℕ := if 0 ≤ t then m.num.natAbs else m.num.natAbs * 2 ^ (-t).toNat
    let den : ℕ := if 0 ≤ t then m.den * 2 ^ t.toNat else m.den
    let k := roundHalfEven num den
    if 2 ^ (1024 - t).toNat ≤ k then .inf neg
    else
      let r : ℚ := if 0 ≤ t then mkRat (k * 2 ^ t.toNat) 1
                   else mkRat k (2 ^ (-t).toNat)
      .finite (if neg then -r else r)

/-- CPython `float(s)` on a string: parse, then round exactly; `inf`/`nan`
keywords give the corresponding values, and decimal overflow gives a signed
infinity. `none` models the `ValueError` path. -/
def pyFloatOfString (s : String) : Option PyFloat :=
  (pyParseLit s).map (fun p =>
    match p with
    | (neg, .num q) => roundRatToDouble (if neg then -q else q)
    | (neg, .infLit) => .inf neg
    | (_, .nanLit) => .nan)

/-! ## Validators (`trading_bot/bot/validators.py`) -/

/-- The distinct `ValidationError` messages raised in `validators.py`, one
constructor per f-string template, carrying the formatted arguments. -/
inductive VErr where
  | symbolEmpty
  | symbolInvalidFormat (s : String)
  | symbolTooShort (s : String)
  | sideEmpty
  | sideInvalid (s : String)
  | orderTypeEmpty
  | orderTypeInvalid (s : String)
  | quantityInvalidFormat (s : String)
  | quantityNotPositive (v : PyFloat)
  | quantityTooLarge (v : PyFloat)
  | priceRequiredForLimit
  | priceInvalidFormat (s : String)
  | priceNotPositive (v : PyFloat)
deriving DecidableEq, Repr

/-- Python `str.upper()`, ASCII range (the bot's symbols/sides/types). -/
def pyUpperChar (c : Char) : Char :=
  if decide ('a' ≤ c) && decide (c ≤ 'z') then Char.ofNat (c.toNat - 32) else c

/-- Python `str.upper()` on a string, ASCII range. -/
def pyUpper (s : String) : String := String.mk (s.data.map pyUpperChar)

/-- Is `c` in the character class `[A-Z0-9]`? -/
def isUpperAlnum (c : Char) : Bool :=
  (decide ('A' ≤ c) && decide (c ≤ 'Z')) || isDigitC c

/-- Python `re.match(r'\x5e[A-Z0-9]+$', s) is not None`: a nonempty run of
`[A-Z0-9]` spanning the whole string, where `$` also matches just before one
trailing newline (Python `re` semantics for `$`). -/
def reMatchUpperAlnum (s : String) : Bool :=
  let cs := s.data
  let core := if cs.getLast? = some (Char.ofNat 10) then cs.dropLast else cs
  !core.isEmpty && core.all isUpperAlnum

/-- `OrderValidator.validate_symbol`: reject empty input, upper-case, require
a full `[A-Z0-9]+` regex match and length at least 6; return the upper-cased
symbol. -/
def validate_symbol (symbol : String) : Except VErr String :=
  if symbol = "" then .error .symbolEmpty
  else
    let symbol := pyUpper symbol
    if !reMatchUpperAlnum symbol then .error (.symbolInvalidFormat symbol)
    else if symbol.length < 6 then .error (.symbolTooShort symbol)
    else .ok symbol

/-- `OrderValidator.validate_side`: reject empty input, upper-case, require
membership in `VALID_SIDES = ['BUY', 'SELL']`. -/
def validate_side (side : String) : Except VErr String :=
  if side = "" then .error .sideEmpty
  else
    let side := pyUpper side
    if side ∉ ["BUY", "SELL"] then .error (.sideInvalid side)
    else .ok side

/-- `OrderValidator.validate_order_type`: reject empty input, upper-case,
require membership in `VALID_ORDER_TYPES = ['MARKET', 'LIMIT']`. -/
def validate_order_type (order_type : String) : Except VErr String :=
  if order_type = "" then .error .orderTypeEmpty
  else
    let order_type := pyUpper order_type
    if order_type ∉ ["MARKET", "LIMIT"] then .error (.orderTypeInvalid order_type)
    else .ok order_type

/-- The float literal `0` compared against in `validate_quantity`. -/
def pyZero : PyFloat := .finite 0

/-- The float literal `1000000` compared against in `validate_quantity`. -/
def pyMillion : PyFloat := .finite 1000000

/-- `OrderValidator.validate_quantity`: `float(quantity)` (a `ValueError`
becomes the invalid-format message), then reject `qty <= 0` and
`qty > 1000000`, else return the parsed float. -/
def validate_quantity (quantity : String) : Except VErr PyFloat :=
  match pyFloatOfString quantity with
  | none => .error (.quantityInvalidFormat quantity)
  | some qty =>
    if pyLe qty pyZero then .error (.quantityNotPositive qty)
    else if pyGt qty pyMillion then .error (.quantityTooLarge qty)
    else .ok qty

/-- Python truthiness of the optional `price` argument: `None` and the empty
string are falsy. -/
def pyTruthy : Option String → Bool
  | none => false
  | some s => !(s = "")

/-- `OrderValidator.validate_price`: for `MARKET` return `None`, logging a
non-fatal warning when a truthy price was supplied; for `LIMIT` require a
truthy price that parses as a float and is positive; any other order type
falls through to `return None`. The second component collects the
`logger.warning` messages emitted. -/
def validate_price (price : Option String) (order_type : String) :
    Except VErr (Option PyFloat × List String) :=
  if order_type = "MARKET" then
    .ok (none,
      if pyTruthy price then
        ["Price provided for MARKET order will be ignored: " ++
          (match price with | some s => s | none => "None")]
      else [])
  else if order_type = "LIMIT" then
    if !pyTruthy price then .error .priceRequiredForLimit
    else
      match pyFloatOfString ((match price with | some s => s | none => "")) with
      | none => .error (.priceInvalidFormat
          (match price with | some s => s | none => "None"))
      | some p =>
        if pyLe p pyZero then .error (.priceNotPositive p)
        else .ok (some p, [])
  else .ok (none, [])

/-- `OrderValidator.validate_order_params`: validate symbol, side, order type,
quantity and price in that order, fail-fast, passing the validated symbol as
error context and the validated order type into price validation; return the
validated tuple (warnings are logged, not returned). -/
def validate_order_params (symbol side order_type quantity : String)
    (price : Option String) :
    Except VErr (String × String × String × PyFloat × Option PyFloat) :=
  match validate_symbol symbol with
  | .error e => .error e
  | .ok vsymbol =>
    match validate_side side with
    | .error e => .error e
    | .ok vside =>
      match validate_order_type order_type with
      | .error e => .error e
      | .ok vtype =>
        match validate_quantity quantity with
        | .error e => .error e
        | .ok vqty =>
          match validate_price price vtype with
          | .error e => .error e
          | .ok vprice => .ok (vsymbol, vside, vtype, vqty, vprice.1)

/-! ## Byte-level encoding (`urllib.parse.urlencode` / UTF-8) -/

/-- UTF-8 encoding of one character, as byte values. -/
def utf8Char (c : Char) : List ℕ :=
  let n := c.toNat
  if n < 128 then [n]
  else if n < 2048 then [192 + n / 64, 128 + n % 64]
  else if n < 65536 then [224 + n / 4096, 128 + (n / 64) % 64, 128 + n % 64]
  else [240 + n / 262144, 128 + (n / 4096) % 64, 128 + (n / 64) % 64, 128 + n % 64]

/-- UTF-8 encoding of a string (Python `s.encode('utf-8')`). -/
def utf8Bytes (s : String) : List ℕ := s.data.flatMap utf8Char

/-- The bytes `urllib.parse.quote` never escapes: ASCII letters, digits, and
`\x5f . - ~`. -/
def alwaysSafe (b : ℕ) : Bool :=
  (65 ≤ b && b ≤ 90) || (97 ≤ b && b ≤ 122) || (48 ≤ b && b ≤ 57) ||
  b = 95 || b = 46 || b = 45 || b = 126

/-- Upper-case hex digit of a value below 16 (percent-escapes). -/
def hexCharU (n : ℕ) : Char :=
  if n < 10 then Char.ofNat (48 + n) else Char.ofNat (55 + n)

/-- Lower-case hex digit of a value below 16 (`hexdigest`). -/
def hexCharL (n : ℕ) : Char :=
  if n < 10 then Char.ofNat (48 + n) else Char.ofNat (87 + n)

/-- `urllib.parse.quote_plus` on one byte: safe bytes unchanged, space to
`+`, anything else percent-escaped in upper-case hex. -/
def quoteByte (b : ℕ) : List Char :=
  if alwaysSafe b then [Char.ofNat b]
  else if b = 32 then ['+']
  else ['%', hexCharU (b / 16), hexCharU (b % 16)]

/-- `urllib.parse.quote_plus` on a string. -/
def quotePlus (s : String) : String :=
  String.mk ((utf8Bytes s).flatMap quoteByte)

/-- `urllib.parse.urlencode` over an insertion-ordered parameter list (the
iteration order of the Python dict): `k=v` pairs joined with `&`, keys and
values `quote_plus`-encoded. Values are modelled post-`str()`. -/
def urlencodeParams (ps : List (String × String)) : String :=
  String.intercalate "&" (ps.map (fun p => quotePlus p.1 ++ "=" ++ quotePlus p.2))

/-! ## SHA-256 and HMAC (`hashlib` / `hmac`)

Words are naturals reduced mod `2 ^ 32`. The round constants are derived,
not transcribed: `K[i]` is the integer cube root of `p * 2 ^ 96` mod
`2 ^ 32` for the i-th prime `p` (the fractional cube-root bits of FIPS
180-4), and the initial state uses `Nat.sqrt` the same way. -/

/-- `2 ^ 32`, the word modulus. -/
def M32 : ℕ := 4294967296

/-- Word addition mod `2 ^ 32`. -/
def add32 (a b : ℕ) : ℕ := (a + b) % M32

/-- Right-rotation of a 32-bit word. -/
def rotr (n x : ℕ) : ℕ := ((x >>> n) ||| (x <<< (32 - n))) % M32

/-- Bitwise complement of a 32-bit word. -/
def not32 (x : ℕ) : ℕ := x ^^^ 4294967295

/-- The first 64 primes, source of the SHA-256 constants. -/
def primes64 : List ℕ :=
  [2, 3, 5, 7, 11, 13, 17, 19, 23, 29, 31, 37, 41, 43, 47, 53,
   59, 61, 67, 71, 73, 79, 83, 89, 97, 101, 103, 107, 109, 113, 127, 131,
   137, 139, 149, 151, 157, 163, 167, 173, 179, 181, 191, 193, 197, 199, 211, 223,
   227, 229, 233, 239, 241, 251, 257, 263, 269, 271, 277, 281, 283, 293, 307, 311]

/-- Binary-search step for the integer cube root. -/
def icbrtAux (n : ℕ) : ℕ → ℕ → ℕ → ℕ
  | 0, lo, _ => lo
  | fuel + 1, lo, hi =>
    if hi ≤ lo + 1 then lo
    else
      let mid := (lo + hi) / 2
      if mid * mid * mid ≤ n then icbrtAux n fuel mid hi
      else icbrtAux n fuel lo mid

/-- Integer cube root (floor). -/
def icbrt (n : ℕ) : ℕ := icbrtAux n 130 0 (n + 1)

/-- The 64 SHA-256 round constants. -/
def sha256K : List ℕ := primes64.map (fun p => icbrt (p * 2 ^ 96) % M32)

/-- Binary-search step for the integer square root. -/
def isqrtAux (n : ℕ) : ℕ → ℕ → ℕ → ℕ
  | 0, lo, _ => lo
  | fuel + 1, lo, hi =>
    if hi ≤ lo + 1 then lo
    else
      let mid := (lo + hi) / 2
      if mid * mid ≤ n then isqrtAux n fuel mid hi
      else isqrtAux n fuel lo mid

/-- Integer square root (floor), kernel-reducible. -/
def isqrt (n : ℕ) : ℕ := isqrtAux n 130 0 (n + 1)

/-- The 8 initial SHA-256 state words. -/
def sha256H0 : List ℕ := (primes64.take 8).map (fun p => isqrt (p * 2 ^ 64) % M32)

/-- Message-schedule sigma-0. -/
def ssig0 (x : ℕ) : ℕ := rotr 7 x ^^^ rotr 18 x ^^^ (x >>> 3)

/-- Message-schedule sigma-1. -/
def ssig1 (x : ℕ) : ℕ := rotr 17 x ^^^ rotr 19 x ^^^ (x >>> 10)

/-- Round function big-sigma-0. -/
def bsig0 (x : ℕ) : ℕ := rotr 2 x ^^^ rotr 13 x ^^^ rotr 22 x

/-- Round function big-sigma-1. -/
def bsig1 (x : ℕ) : ℕ := rotr 6 x ^^^ rotr 11 x ^^^ rotr 25 x

/-- Choice function. -/
def chF (e f g : ℕ) : ℕ := (e &&& f) ^^^ (not32 e &&& g)

/-- Majority function. -/
def majF (a b c : ℕ) : ℕ := (a &&& b) ^^^ (a &&& c) ^^^ (b &&& c)

/-- Big-endian bytes of a 64-bit length. -/
def be64 (n : ℕ) : List ℕ :=
  [(n >>> 56) % 256, (n >>> 48) % 256, (n >>> 40) % 256, (n >>> 32) % 256,
   (n >>> 24) % 256, (n >>> 16) % 256, (n >>> 8) % 256, n % 256]

/-- SHA-256 padding: append `0x80`, zeros to 56 mod 64, then the bit length
big-endian. -/
def sha256Pad (msg : List ℕ) : List ℕ :=
  let L := msg.length
  let k := (120 - ((L + 1) % 64)) % 64
  msg ++ [128] ++ List.replicate k 0 ++ be64 (8 * L)

/-- Pack bytes into big-endian 32-bit words. -/
def bytesToWordsBE : List ℕ → List ℕ
  | b0 :: b1 :: b2 :: b3 :: t =>
    (b0 * 16777216 + b1 * 65536 + b2 * 256 + b3) :: bytesToWordsBE t
  | _ => []

/-- Unpack 32-bit words into big-endian bytes. -/
def wordsToBytesBE (ws : List ℕ) : List ℕ :=
  ws.flatMap (fun w => [(w >>> 24) % 256, (w >>> 16) % 256, (w >>> 8) % 256, w % 256])

/-- Next message-schedule word from the ones already produced. -/
def nextW (ws : List ℕ) : ℕ :=
  let n := ws.length
  add32 (add32 (ws.getD (n - 16) 0) (ssig0 (ws.getD (n - 15) 0)))
        (add32 (ws.getD (n - 7) 0) (ssig1 (ws.getD (n - 2) 0)))

/-- Extend a 16-word block to the 64-word message schedule. -/
def schedule (block : List ℕ) : List ℕ :=
  (List.range 48).foldl (fun ws _ => ws ++ [nextW ws]) block

/-- One SHA-256 round on the 8-word working state. -/
def roundStep (st : ℕ × ℕ × ℕ × ℕ × ℕ × ℕ × ℕ × ℕ) (kw : ℕ × ℕ) :
    ℕ × ℕ × ℕ × ℕ × ℕ × ℕ × ℕ × ℕ :=
  let (a, b, c, d, e, f, g, h) := st
  let t1 := add32 h (add32 (bsig1 e) (add32 (chF e f g) (add32 kw.1 kw.2)))
  let t2 := add32 (bsig0 a) (majF a b c)
  (add32 t1 t2, a, b, c, add32 d t1, e, f, g)

/-- SHA-256 compression of one 16-word block into the chaining state. -/
def compress (h : List ℕ) (block : List ℕ) : List ℕ :=
  let ws := schedule block
  let init := (h.getD 0 0, h.getD 1 0, h.getD 2 0, h.getD 3 0,
               h.getD 4 0, h.getD 5 0, h.getD 6 0, h.getD 7 0)
  let (a, b, c, d, e, f, g, hh) := (sha256K.zip ws).foldl roundStep init
  List.zipWith add32 h [a, b, c, d, e, f, g, hh]

/-- Fold the compression over the padded word stream. -/
def sha256Process : ℕ → List ℕ → List ℕ → List ℕ
  | 0, h, _ => h
  | _ + 1, h, [] => h
  | fuel + 1, h, ws => sha256Process fuel (compress h (ws.take 16)) (ws.drop 16)

/-- SHA-256 of a byte list. -/
def sha256 (msg : List ℕ) : List ℕ :=
  let ws := bytesToWordsBE (sha256Pad msg)
  wordsToBytesBE (sha256Process ws.length sha256H0 ws)

/-- HMAC-SHA256 of a message under a key, both byte lists (`hmac.new` with
`hashlib.sha256`). -/
def hmacSha256 (key msg : List ℕ) : List ℕ :=
  let k0 := if 64 < key.length then sha256 key else key
  let k1 := k0 ++ List.replicate (64 - k0.length) 0
  sha256 ((k1.map (fun b => b ^^^ 92)) ++ sha256 ((k1.map (fun b => b ^^^ 54)) ++ msg))

/-- Lower-case hex rendering of a byte list (`.hexdigest()`). -/
def hexDigest (bs : List ℕ) : String :=
  String.mk (bs.flatMap (fun b => [hexCharL (b / 16), hexCharL (b % 16)]))

/-! ## Client (`trading_bot/bot/client.py`) -/

/-- `BinanceClient._generate_signature`: HMAC-SHA256 hexdigest of the
urlencoded parameters under the UTF-8 encoded account secret. -/
def generate_signature (api_secret : String) (params : List (String × String)) :
    String :=
  hexDigest (hmacSha256 (utf8Bytes api_secret) (utf8Bytes (urlencodeParams params)))

/-- Python `d[k] = v` on an insertion-ordered dict: replace the value in
place when the key exists, else append the pair. -/
def dictInsert (d : List (String × String)) (k v : String) :
    List (String × String) :=
  match d with
  | [] => [(k, v)]
  | (k', v') :: t => if k' = k then (k', v) :: t else (k', v') :: dictInsert t k v

/-- The keys of a params dict, in insertion order. -/
def akeys (d : List (String × String)) : List String := d.map Prod.fst

/-- Dict lookup (first, hence unique, occurrence of a key). -/
def alook (d : List (String × String)) (k : String) : Option String :=
  match d with
  | [] => none
  | (k', v) :: t => if k' = k then some v else alook t k

/-- The signed-request mutation of `BinanceClient._request` (lines 86-88):
set `params['timestamp']` to the current epoch milliseconds, then set
`params['signature']` to the signature of the params as they now stand. -/
def signParams (api_secret : String) (nowMs : ℕ)
    (params : List (String × String)) : List (String × String) :=
  let p1 := dictInsert params "timestamp" (toString nowMs)
  dictInsert p1 "signature" (generate_signature api_secret p1)

/-- The full params-state transformation of `BinanceClient._request` on the
caller's dict: unchanged when `signed` is false, `signParams` when true.
In-place mutation is modelled as explicit state passing, so this value is
what the caller observes in its own dict after the call. -/
def requestParams (api_secret : String) (nowMs : ℕ)
    (params : List (String × String)) (signed : Bool) : List (String × String) :=
  if signed then signParams api_secret nowMs params else params

/-! ## Response handling (`client.py` lines 106-113) -/

/-- A JSON scalar as it appears in exchange error bodies. -/
inductive JVal where
  | jstr (s : String)
  | jnum (n : Int)
  | jbool (b : Bool)
  | jnull
deriving DecidableEq, Repr

/-- Python `str()` of a JSON scalar, as an f-string renders it. -/
def jRender : JVal → String
  | .jstr s => s
  | .jnum n => toString n
  | .jbool b => if b then "True" else "False"
  | .jnull => "None"

/-- Lookup in a JSON object. -/
def jlook (d : List (String × JVal)) (k : String) : Option JVal :=
  match d with
  | [] => none
  | (k', v) :: t => if k' = k then some v else jlook t k

/-- The errors `_request` can raise past the HTTP layer: the `ValueError`
carrying the formatted API error, or the `requests` JSON-decode exception
that `response.json()` raises on an unparsable body. -/
inductive ClientError where
  | valueError (msg : String)
  | jsonDecodeError (e : String)
deriving DecidableEq, Repr

/-- `error_data.get('msg', 'Unknown error')`, rendered. -/
def errMsgOf (d : List (String × JVal)) : String :=
  match jlook d "msg" with
  | some v => jRender v
  | none => "Unknown error"

/-- `error_data.get('code', 'N/A')`, rendered. -/
def errCodeOf (d : List (String × JVal)) : String :=
  match jlook d "code" with
  | some v => jRender v
  | none => "N/A"

/-- The response handling of `BinanceClient._request`: on a non-200 status,
take `response.json()` when the body text is non-empty (else `{}`) — an
unparsable body raises the decode error — and raise
`ValueError("API Error [code]: msg")` with the `.get` defaults; on a 200
status return the parsed body. `json` is the result the `requests` library
would produce for `text`. -/
def handleStatus (statusCode : ℕ) (text : String)
    (json : Except String (List (String × JVal))) :
    Except ClientError (List (String × JVal)) :=
  if statusCode ≠ 200 then
    match (if text = "" then .ok [] else json : Except String (List (String × JVal))) with
    | .error e => .error (.jsonDecodeError e)
    | .ok d =>
      .error (.valueError ("API Error [" ++ errCodeOf d ++ "]: " ++ errMsgOf d))
  else
    match json with
    | .error e => .error (.jsonDecodeError e)
    | .ok d => .ok d

/-- A value in the params dict `place_order` builds: a string field or a
float passed through unrendered. -/
inductive ParamV where
  | str (s : String)
  | num (v : PyFloat)
deriving DecidableEq, Repr

/-- `BinanceClient.place_order` up to the transport call: build the params
dict, raising `ValueError("Price is required for LIMIT orders")` when a
`LIMIT` order has no price, and adding `price` and `timeInForce` for `LIMIT`
orders. Returns the params it would send. -/
def clientPlaceOrder (symbol side order_type : String) (quantity : PyFloat)
    (price : Option PyFloat) (time_in_force : String) :
    Except ClientError (List (String × ParamV)) :=
  let params : List (String × ParamV) :=
    [("symbol", .str symbol), ("side", .str side), ("type", .str order_type),
     ("quantity", .num quantity)]
  if order_type = "LIMIT" then
    match price with
    | none => .error (.valueError "Price is required for LIMIT orders")
    | some p =>
      .ok (params ++ [("price", .num p), ("timeInForce", .str time_in_force)])
  else .ok params

/-! ## Order manager rendering (`trading_bot/bot/orders.py`) -/

/-- The status-specific line `OrderManager._print_order_response` prints
after the field dump (lines 162-173): exactly one branch of the
`if`/`elif` chain. -/
def statusLine (status : String) : String :=
  if status = "FILLED" then "✓ ORDER FILLED SUCCESSFULLY"
  else if status = "NEW" then "✓ ORDER PLACED SUCCESSFULLY (PENDING)"
  else if status = "PARTIALLY_FILLED" then "⚠ ORDER PARTIALLY FILLED"
  else if status = "CANCELED" then "✗ ORDER CANCELED"
  else if status = "REJECTED" then "✗ ORDER REJECTED"
  else "ℹ ORDER STATUS: " ++ status

/-! ## Substring test (for what an error message carries) -/

/-- Is `needle` a contiguous substring of `hay` (on character lists)? -/
def listHasSub (needle : List Char) : List Char → Bool
  | [] => needle.isEmpty
  | c :: cs => List.isPrefixOf needle (c :: cs) || listHasSub needle cs

/-- Is `needle` a contiguous substring of `hay`? -/
def strContains (hay needle : String) : Bool := listHasSub needle.data hay.data

/-! ## Spec-side definitions (the claims' own words, for comparison) -/

/-- Whether a string "matches `[A-Z0-9]\x7b6,\x7d`" in the claims' sense: at
least six characters, all in the class `[A-Z0-9]`. Spec-side definition,
applied to the raw input exactly as claim C2 states it. -/
def specSymbolMatch (s : String) : Bool :=
  decide (6 ≤ s.length) && s.data.all isUpperAlnum

/-- Is an `Except` a success? -/
def isOkE {ε α : Type} : Except ε α → Bool
  | .ok _ => true
  | .error _ => false

/-- The code-side success condition of symbol validation: the upper-cased
input passes the regex and the length check. -/
def symbolOkB (s : String) : Bool :=
  reMatchUpperAlnum (pyUpper s) && decide (6 ≤ (pyUpper s).length)

/-- A collision of the keyed HMAC-SHA256 underlying the signature: two
distinct query strings with the same MAC under the given secret. Never
assumed; it appears only as the excluded disjunct of claim C8. -/
def HmacCollision (secret s1 s2 : String) : Prop :=
  s1 ≠ s2 ∧
    hmacSha256 (utf8Bytes secret) (utf8Bytes s1) =
      hmacSha256 (utf8Bytes secret) (utf8Bytes s2)

end CryptoBot

deriving instance DecidableEq for Except

namespace CryptoBot

/-! ## Helper lemmas -/

/-- Inserting an absent key appends the pair at the end (Python dict
insertion order). -/
theorem dictInsert_of_notMem (d : List (String × String)) (k v : String)
    (h : k ∉ akeys d) : dictInsert d k v = d ++ [(k, v)] := by
  induction d with
  | nil => rfl
  | cons hd t ih =>
    obtain ⟨k', v'⟩ := hd
    have hk : k' ≠ k := fun he => h (by rw [he]; exact List.mem_cons_self _ _)
    have ht : k ∉ akeys t := fun hm => h (List.mem_cons_of_mem _ hm)
    simp only [dictInsert, if_neg hk, List.cons_append, List.cons.injEq, true_and]
    exact ih ht

/-- Lookup stays in the left part when the key occurs there. -/
theorem alook_append_of_mem (d e : List (String × String)) (k : String)
    (h : k ∈ akeys d) : alook (d ++ e) k = alook d k := by
  induction d with
  | nil => exact absurd h (by simp [akeys])
  | cons hd t ih =>
    obtain ⟨k', v'⟩ := hd
    by_cases hk : k' = k
    · simp [alook, hk]
    · have ht : k ∈ akeys t := by
        rcases List.mem_cons.mp h with h1 | h1
        · exact absurd h1.symm hk
        · exact h1
      simp only [List.cons_append, alook, if_neg hk]
      exact ih ht

/-- Lookup moves to the right part when the key is absent on the left. -/
theorem alook_append_of_notMem (d e : List (String × String)) (k : String)
    (h : k ∉ akeys d) : alook (d ++ e) k = alook e k := by
  induction d with
  | nil => rfl
  | cons hd t ih =>
    obtain ⟨k', v'⟩ := hd
    have hk : k' ≠ k := fun he => h (by rw [he]; exact List.mem_cons_self _ _)
    have ht : k ∉ akeys t := fun hm => h (List.mem_cons_of_mem _ hm)
    simp only [List.cons_append, alook, if_neg hk]
    exact ih ht

/-- On a params dict that does not already contain the keys `timestamp` or
`signature` — true of every call the bot makes — the signed-request mutation
appends `timestamp` and then the signature computed over the params with the
timestamp included and the signature excluded. -/
theorem signParams_clean (secret : String) (nowMs : ℕ)
    (params : List (String × String))
    (hts : "timestamp" ∉ akeys params) (hsig : "signature" ∉ akeys params) :
    signParams secret nowMs params =
      params ++ [("timestamp", toString nowMs),
        ("signature",
          generate_signature secret (params ++ [("timestamp", toString nowMs)]))] := by
  unfold signParams
  rw [dictInsert_of_notMem params _ _ hts]
  rw [dictInsert_of_notMem]
  · simp
  · intro hmem
    rw [show akeys (params ++ [("timestamp", toString nowMs)]) =
          akeys params ++ ["timestamp"] from by simp [akeys]] at hmem
    rcases List.mem_append.mp hmem with h | h
    · exact hsig h
    · rcases List.mem_cons.mp h with h1 | h1
      · exact absurd h1 (by decide)
      · simp at h1

/-! ## Claim theorems -/

/-- C1: on every signed request — whose caller-supplied params, as at every
call site of the bot, do not already contain a `timestamp` or `signature`
key — the timestamp (current epoch milliseconds) is appended to the params
first, the HMAC-SHA256 signature is computed over the serialized query
string of the params including that timestamp and excluding the signature
itself, and the signature is appended as the final parameter. -/
theorem signed_request_appends_timestamp_then_signature
    (secret : String) (nowMs : ℕ) (params : List (String × String))
    (hts : "timestamp" ∉ akeys params) (hsig : "signature" ∉ akeys params) :
    signParams secret nowMs params =
      params ++ [("timestamp", toString nowMs),
        ("signature",
          generate_signature secret (params ++ [("timestamp", toString nowMs)]))] :=
  signParams_clean secret nowMs params hts hsig

/-- C1 witness: the signed-request transformation at a concrete params dict. -/
theorem signed_request_witness :
    signParams "testsecret" 1700000000000 [("symbol", "BTCUSDT")] =
      [("symbol", "BTCUSDT")] ++ [("timestamp", toString 1700000000000),
        ("signature", generate_signature "testsecret"
          ([("symbol", "BTCUSDT")] ++ [("timestamp", toString 1700000000000)]))] :=
  signed_request_appends_timestamp_then_signature "testsecret" 1700000000000
    [("symbol", "BTCUSDT")] (by decide) (by decide)

/-- C9: the request operation's mutation of the caller's params dict (state
passing models the in-place `params[...] = ...` updates, so this is exactly
what the caller sees in its own dict afterwards): when `signed` is true and
the dict does not already contain `timestamp` or `signature` — true of
every call the bot makes — every pre-existing key keeps its value and the
two keys are added; when `signed` is false the dict is untouched. -/
theorem request_mutates_params_frame
    (secret : String) (nowMs : ℕ) (params : List (String × String))
    (hts : "timestamp" ∉ akeys params) (hsig : "signature" ∉ akeys params) :
    (∀ k, k ∈ akeys params →
      alook (requestParams secret nowMs params true) k = alook params k)
  ∧ alook (requestParams secret nowMs params true) "timestamp" =
      some (toString nowMs)
  ∧ alook (requestParams secret nowMs params true) "signature" =
      some (generate_signature secret (params ++ [("timestamp", toString nowMs)]))
  ∧ requestParams secret nowMs params false = params := by
  have hmut : requestParams secret nowMs params true =
      params ++ [("timestamp", toString nowMs),
        ("signature",
          generate_signature secret (params ++ [("timestamp", toString nowMs)]))] := by
    rw [show requestParams secret nowMs params true = signParams secret nowMs params
          from rfl]
    exact signParams_clean secret nowMs params hts hsig
  refine ⟨?_, ?_, ?_, rfl⟩
  · intro k hk
    rw [hmut, alook_append_of_mem _ _ _ hk]
  · rw [hmut, alook_append_of_notMem _ _ _ hts]
    simp [alook]
  · rw [hmut, alook_append_of_notMem _ _ _ hsig]
    simp [alook]

/-- C9 witness: the frame property at a concrete params dict. -/
theorem request_mutates_params_witness :
    alook (requestParams "testsecret" 1700000000000 [("symbol", "ETHUSDT")] true)
      "symbol" = some "ETHUSDT"
  ∧ requestParams "testsecret" 1700000000000 [("symbol", "ETHUSDT")] false =
      [("symbol", "ETHUSDT")] := by
  have h := request_mutates_params_frame "testsecret" 1700000000000
    [("symbol", "ETHUSDT")] (by decide) (by decide)
  exact ⟨by rw [h.1 "symbol" (by decide)]; rfl, h.2.2.2⟩

/-- C4: for every supplied price — valid, invalid, non-numeric or absent —
price validation under `orderType = MARKET` never fails: the price is
discarded (the result price is `none`) and a non-fatal warning is logged
exactly when a truthy price was supplied. -/
theorem market_price_always_discarded (price : Option String) :
    validate_price price "MARKET" =
      .ok (none,
        if pyTruthy price then
          ["Price provided for MARKET order will be ignored: " ++
            (match price with | some s => s | none => "None")]
        else []) := by
  rfl

/-- C7: the post-submission summary's status-specific annotation is exactly
one line chosen by status: the success marker for `FILLED`, the pending
marker for `NEW`, the warning marker for `PARTIALLY_FILLED`, the failure
marker for `CANCELED` and for `REJECTED`, and the neutral informational
marker for any other status. -/
theorem status_annotation_cases :
    statusLine "FILLED" = "✓ ORDER FILLED SUCCESSFULLY"
  ∧ statusLine "NEW" = "✓ ORDER PLACED SUCCESSFULLY (PENDING)"
  ∧ statusLine "PARTIALLY_FILLED" = "⚠ ORDER PARTIALLY FILLED"
  ∧ statusLine "CANCELED" = "✗ ORDER CANCELED"
  ∧ statusLine "REJECTED" = "✗ ORDER REJECTED"
  ∧ ∀ s, s ∉ (["FILLED", "NEW", "PARTIALLY_FILLED", "CANCELED", "REJECTED"] :
        List String) →
      statusLine s = "ℹ ORDER STATUS: " ++ s := by
  refine ⟨rfl, rfl, rfl, rfl, rfl, ?_⟩
  intro s hs
  simp only [List.mem_cons, List.not_mem_nil, or_false, not_or] at hs
  obtain ⟨h1, h2, h3, h4, h5⟩ := hs
  simp [statusLine, h1, h2, h3, h4, h5]

/-- C7 witness: an unknown status renders the neutral informational marker. -/
theorem status_annotation_witness :
    statusLine "EXPIRED" = "ℹ ORDER STATUS: " ++ "EXPIRED" :=
  status_annotation_cases.2.2.2.2.2 "EXPIRED" (by decide)

/-- C2 counterexample: the claim "validation succeeds iff the input string
matches `[A-Z0-9]\x7b6,\x7d`" fails at `"btcusdt"`: the input does not match
the class (lower-case letters), yet validation succeeds, because the code
upper-cases before matching. -/
theorem symbol_claim_counterexample :
    validate_symbol "btcusdt" = .ok "BTCUSDT"
  ∧ specSymbolMatch "btcusdt" = false := by
  exact ⟨by decide, by decide⟩

/-- C2 amended: symbol validation upper-cases first — it succeeds exactly
when the upper-cased input passes the anchored `[A-Z0-9]+` regex (Python's
`$` also tolerating one trailing newline) with length at least 6, and on
success returns the upper-cased input. -/
theorem symbol_validation_characterization (s : String) :
    isOkE (validate_symbol s) = symbolOkB s
  ∧ (symbolOkB s = true → validate_symbol s = .ok (pyUpper s)) := by
  by_cases hs : s = ""
  · subst hs
    exact ⟨by decide, by decide⟩
  · cases h1 : reMatchUpperAlnum (pyUpper s) with
    | false =>
      constructor
      · simp [validate_symbol, hs, h1, symbolOkB, isOkE]
      · intro hok
        rw [symbolOkB, h1] at hok
        simp at hok
    | true =>
      by_cases h2 : (pyUpper s).length < 6
      · have h6 : ¬ (6 ≤ (pyUpper s).length) := by omega
        constructor
        · simp [validate_symbol, hs, h1, h2, symbolOkB, isOkE, h6]
        · intro hok
          rw [symbolOkB, h1] at hok
          simp [h6] at hok
      · have h6 : 6 ≤ (pyUpper s).length := by omega
        constructor
        · simp [validate_symbol, hs, h1, h2, symbolOkB, isOkE, h6]
        · intro _
          simp [validate_symbol, hs, h1, h2]

/-- C2 witness: the characterization applied at `"ethusdt"`. -/
theorem symbol_validation_witness :
    validate_symbol "ethusdt" = .ok (pyUpper "ethusdt") :=
  (symbol_validation_characterization "ethusdt").2 (by decide)

/-- C3 counterexample: the claim "quantity validation succeeds exactly when
the string parses as a positive finite decimal number at most 1,000,000"
fails at `"nan"`: the string has no finite decimal value, yet validation
succeeds and returns nan, because `float('nan')` parses and nan compares
false against both bounds. -/
theorem quantity_claim_counterexample :
    validate_quantity "nan" = .ok .nan ∧ decimalValue "nan" = none := by
  exact ⟨by decide, by decide⟩

/-- C3 amended: quantity validation applies Python `float()` — a parse
failure, a value comparing `<= 0`, and a value comparing `> 1000000` produce
three distinct errors (in that order of checks, so `inf` hits the too-large
branch and nan passes both); any other parsed value is returned exactly. -/
theorem quantity_validation_characterization (s : String) :
    (pyFloatOfString s = none →
      validate_quantity s = .error (.quantityInvalidFormat s))
  ∧ (∀ v, pyFloatOfString s = some v → pyLe v pyZero = true →
      validate_quantity s = .error (.quantityNotPositive v))
  ∧ (∀ v, pyFloatOfString s = some v → pyLe v pyZero = false →
      pyGt v pyMillion = true →
      validate_quantity s = .error (.quantityTooLarge v))
  ∧ (∀ v, pyFloatOfString s = some v → pyLe v pyZero = false →
      pyGt v pyMillion = false → validate_quantity s = .ok v) := by
  refine ⟨?_, ?_, ?_, ?_⟩
  · intro h
    simp [validate_quantity, h]
  · intro v h h0
    simp [validate_quantity, h, h0]
  · intro v h h0 h1
    simp [validate_quantity, h, h0, h1]
  · intro v h h0 h1
    simp [validate_quantity, h, h0, h1]

/-- C3 witness: the characterization applied at a parse failure, at a
negative value, at an overlarge value, and at an accepted value. -/
theorem quantity_validation_witness :
    validate_quantity "abc" = .error (.quantityInvalidFormat "abc")
  ∧ validate_quantity "-5" = .error (.quantityNotPositive (.finite (mkRat (-5) 1)))
  ∧ validate_quantity "2000000" =
      .error (.quantityTooLarge (.finite (mkRat 2000000 1)))
  ∧ validate_quantity "250" = .ok (.finite (mkRat 250 1)) :=
  ⟨(quantity_validation_characterization "abc").1 (by decide),
   (quantity_validation_characterization "-5").2.1 _ (by decide) (by decide),
   (quantity_validation_characterization "2000000").2.2.1 _ (by decide) (by decide)
     (by decide),
   (quantity_validation_characterization "250").2.2.2 _ (by decide) (by decide)
     (by decide)⟩

/-- C5: combined validation runs the per-field checks in the order symbol,
side, orderType, quantity, price — price validation receiving the
already-validated order type — and the first failing check's error is
returned with no later check influencing the result (fail-fast); when all
five succeed the validated tuple is returned. -/
theorem order_params_fail_fast
    (symbol side order_type quantity : String) (price : Option String) :
    (∀ e, validate_symbol symbol = .error e →
      validate_order_params symbol side order_type quantity price = .error e)
  ∧ (∀ vs e, validate_symbol symbol = .ok vs → validate_side side = .error e →
      validate_order_params symbol side order_type quantity price = .error e)
  ∧ (∀ vs vd e, validate_symbol symbol = .ok vs → validate_side side = .ok vd →
      validate_order_type order_type = .error e →
      validate_order_params symbol side order_type quantity price = .error e)
  ∧ (∀ vs vd vt e, validate_symbol symbol = .ok vs → validate_side side = .ok vd →
      validate_order_type order_type = .ok vt →
      validate_quantity quantity = .error e →
      validate_order_params symbol side order_type quantity price = .error e)
  ∧ (∀ vs vd vt vq e, validate_symbol symbol = .ok vs →
      validate_side side = .ok vd → validate_order_type order_type = .ok vt →
      validate_quantity quantity = .ok vq → validate_price price vt = .error e →
      validate_order_params symbol side order_type quantity price = .error e)
  ∧ (∀ vs vd vt vq vp w, validate_symbol symbol = .ok vs →
      validate_side side = .ok vd → validate_order_type order_type = .ok vt →
      validate_quantity quantity = .ok vq →
      validate_price price vt = .ok (vp, w) →
      validate_order_params symbol side order_type quantity price =
        .ok (vs, vd, vt, vq, vp)) := by
  refine ⟨?_, ?_, ?_, ?_, ?_, ?_⟩
  · intro e h1
    simp [validate_order_params, h1]
  · intro vs e h1 h2
    simp [validate_order_params, h1, h2]
  · intro vs vd e h1 h2 h3
    simp [validate_order_params, h1, h2, h3]
  · intro vs vd vt e h1 h2 h3 h4
    simp [validate_order_params, h1, h2, h3, h4]
  · intro vs vd vt vq e h1 h2 h3 h4 h5
    simp [validate_order_params, h1, h2, h3, h4, h5]
  · intro vs vd vt vq vp w h1 h2 h3 h4 h5
    simp [validate_order_params, h1, h2, h3, h4, h5]

/-- C5 witness: a failing symbol short-circuits the whole validation, and a
fully valid input returns the validated tuple. -/
theorem order_params_fail_fast_witness :
    validate_order_params "x" "not-a-side" "not-a-type" "not-a-qty" none =
      .error (.symbolTooShort "X")
  ∧ validate_order_params "btcusdt" "buy" "market" "0.001" none =
      .ok ("BTCUSDT", "BUY", "MARKET",
        .finite (mkRat 1152921504606847 1152921504606846976), none) :=
  ⟨(order_params_fail_fast "x" "not-a-side" "not-a-type" "not-a-qty" none).1
      (.symbolTooShort "X") (by decide),
   (order_params_fail_fast "btcusdt" "buy" "market" "0.001" none).2.2.2.2.2
      "BTCUSDT" "BUY" "MARKET" (.finite (mkRat 1152921504606847 1152921504606846976))
      none [] (by decide) (by decide) (by decide) (by decide) (by decide)⟩

/-- Every byte SHA-256 emits is below 256. -/
theorem sha256_bytes_lt (msg : List ℕ) : ∀ b ∈ sha256 msg, b < 256 := by
  intro b hb
  simp only [sha256, wordsToBytesBE, List.mem_flatMap] at hb
  obtain ⟨w, _, hw⟩ := hb
  simp only [List.mem_cons, List.not_mem_nil, or_false] at hw
  rcases hw with h | h | h | h <;> subst h <;> exact Nat.mod_lt _ (by norm_num)

/-- Every byte HMAC-SHA256 emits is below 256 (it ends in a SHA-256 run). -/
theorem hmacSha256_bytes_lt (key msg : List ℕ) :
    ∀ b ∈ hmacSha256 key msg, b < 256 := by
  unfold hmacSha256
  exact sha256_bytes_lt _

/-- Lower-case hex digits are distinct below 16. -/
theorem hexCharL_inj : ∀ m, m < 16 → ∀ n, n < 16 → hexCharL m = hexCharL n → m = n := by
  decide

/-- The hex-pair expansion underlying `hexDigest` is injective on genuine
byte lists. -/
theorem hexPairs_inj :
    ∀ (a b : List ℕ), (∀ x ∈ a, x < 256) → (∀ x ∈ b, x < 256) →
      (a.flatMap fun v => [hexCharL (v / 16), hexCharL (v % 16)]) =
        (b.flatMap fun v => [hexCharL (v / 16), hexCharL (v % 16)]) → a = b := by
  intro a
  induction a with
  | nil =>
    intro b _ _ h
    cases b with
    | nil => rfl
    | cons y ys => simp [List.flatMap_cons] at h
  | cons x xs ih =>
    intro b ha hb h
    cases b with
    | nil => simp [List.flatMap_cons] at h
    | cons y ys =>
      simp only [List.flatMap_cons, List.cons_append, List.nil_append,
        List.cons.injEq] at h
      obtain ⟨e1, e2, e3⟩ := h
      have hx := ha x (List.mem_cons_self _ _)
      have hy := hb y (List.mem_cons_self _ _)
      have q1 : x / 16 = y / 16 := hexCharL_inj _ (by omega) _ (by omega) e1
      have q2 : x % 16 = y % 16 := hexCharL_inj _ (by omega) _ (by omega) e2
      have hxy : x = y := by omega
      subst hxy
      have htl : xs = ys :=
        ih ys (fun z hz => ha z (List.mem_cons_of_mem _ hz))
          (fun z hz => hb z (List.mem_cons_of_mem _ hz)) e3
      rw [htl]

/-- `hexDigest` is injective on genuine byte lists: two equal hex digests
come from equal byte lists. -/
theorem hexDigest_inj (a b : List ℕ)
    (ha : ∀ x ∈ a, x < 256) (hb : ∀ x ∈ b, x < 256)
    (h : hexDigest a = hexDigest b) : a = b := by
  have hdata : (a.flatMap fun v => [hexCharL (v / 16), hexCharL (v % 16)]) =
      (b.flatMap fun v => [hexCharL (v / 16), hexCharL (v % 16)]) :=
    congrArg String.data h
  exact hexPairs_inj a b ha hb hdata

/-- C8: the signature is a pure function of the secret and the params — equal
params (same keys, values and insertion order) give the identical signature —
and two param lists can share a signature only when their canonical query
strings coincide or the underlying keyed HMAC-SHA256 collides on them. -/
theorem signature_deterministic_and_injective_mod_collision
    (secret : String) (p q : List (String × String)) :
    (p = q → generate_signature secret p = generate_signature secret q)
  ∧ (generate_signature secret p = generate_signature secret q →
      urlencodeParams p = urlencodeParams q ∨
        HmacCollision secret (urlencodeParams p) (urlencodeParams q)) := by
  constructor
  · intro h
    rw [h]
  · intro h
    by_cases he : urlencodeParams p = urlencodeParams q
    · exact Or.inl he
    · refine Or.inr ⟨he, ?_⟩
      exact hexDigest_inj _ _ (hmacSha256_bytes_lt _ _) (hmacSha256_bytes_lt _ _) h

/-- C8 witness: determinism at a concrete params list, and a concrete
changed parameter value changing the signature (both HMACs evaluated). -/
theorem signature_witness :
    generate_signature "testsecret" [("a", "1")] =
      generate_signature "testsecret" [("a", "1")]
  ∧ generate_signature "testsecret" [("a", "1")] ≠
      generate_signature "testsecret" [("a", "2")] :=
  ⟨(signature_deterministic_and_injective_mod_collision "testsecret"
      [("a", "1")] [("a", "1")]).1 rfl,
   by decide⟩

/-- C6 counterexample: the claim "if the body is unparsable, the call fails
with a generic error carrying the raw HTTP status" fails at HTTP 400 with an
empty (hence unparsable) body: the raised error is the fixed string
`API Error [N/A]: Unknown error`, which does not contain the status 400. -/
theorem response_error_counterexample :
    handleStatus 400 "" (.error "Expecting value: line 1 column 1 (char 0)") =
      .error (.valueError "API Error [N/A]: Unknown error")
  ∧ strContains "API Error [N/A]: Unknown error" "400" = false :=
  ⟨by decide, by decide⟩

/-- C6 amended: on a non-success status, a parsable body yields a ValueError
carrying the exchange code and message (with defaults `N/A` and
`Unknown error` for missing fields); an empty body yields that default
ValueError, which carries no HTTP status; and a non-empty unparsable body
propagates the JSON decode error instead of a status-carrying error. -/
theorem response_error_characterization (st : ℕ) (text : String)
    (json : Except String (List (String × JVal))) (hst : st ≠ 200) :
    (text = "" →
      handleStatus st text json =
        .error (.valueError "API Error [N/A]: Unknown error"))
  ∧ (∀ d, text ≠ "" → json = .ok d →
      handleStatus st text json =
        .error (.valueError ("API Error [" ++ errCodeOf d ++ "]: " ++ errMsgOf d)))
  ∧ (∀ e, text ≠ "" → json = .error e →
      handleStatus st text json = .error (.jsonDecodeError e)) := by
  refine ⟨?_, ?_, ?_⟩
  · intro h
    simp [handleStatus, hst, h, errCodeOf, errMsgOf, jlook]
  · intro d h hj
    simp [handleStatus, hst, h, hj]
  · intro e h hj
    simp [handleStatus, hst, h, hj]

/-- C6 witness: the spec's scenario — HTTP 400 with body
`\x7b"code":-1013,"msg":"Invalid quantity"\x7d` fails with the ApiError
carrying both the code and the message. -/
theorem response_error_witness :
    handleStatus 400 "\x7b\"code\":-1013,\"msg\":\"Invalid quantity\"\x7d"
      (.ok [("code", .jnum (-1013)), ("msg", .jstr "Invalid quantity")]) =
      .error (.valueError "API Error [-1013]: Invalid quantity") := by
  have h := (response_error_characterization 400
    "\x7b\"code\":-1013,\"msg\":\"Invalid quantity\"\x7d"
    (.ok [("code", .jnum (-1013)), ("msg", .jstr "Invalid quantity")])
    (by decide)).2.1
    [("code", .jnum (-1013)), ("msg", .jstr "Invalid quantity")] (by decide) rfl
  rw [h]
  decide

/-- A validated order type is `MARKET` or `LIMIT`. -/
theorem validate_order_type_cases (t vt : String)
    (h : validate_order_type t = .ok vt) : vt = "MARKET" ∨ vt = "LIMIT" := by
  unfold validate_order_type at h
  by_cases h0 : t = ""
  · simp [h0] at h
  · rw [if_neg h0] at h
    by_cases hm : pyUpper t ∉ (["MARKET", "LIMIT"] : List String)
    · rw [if_pos hm] at h
      simp at h
    · rw [if_neg hm] at h
      injection h with hv
      rw [← hv]
      rw [not_not] at hm
      simpa using hm

/-- A validated `LIMIT` price is present. -/
theorem validate_price_limit_some (p : Option String) (vp : Option PyFloat)
    (w : List String) (h : validate_price p "LIMIT" = .ok (vp, w)) :
    vp.isSome = true := by
  cases p with
  | none =>
    unfold validate_price at h
    rw [if_neg (by decide), if_pos rfl] at h
    simp [pyTruthy] at h
  | some s =>
    unfold validate_price at h
    rw [if_neg (by decide), if_pos rfl] at h
    cases ht : pyTruthy (some s) with
    | false => simp [ht] at h
    | true =>
      simp only [ht, Bool.not_true, Bool.false_eq_true, if_false] at h
      cases hp : pyFloatOfString s with
      | none => simp [hp] at h
      | some x =>
        cases h0 : pyLe x pyZero with
        | true => simp [hp, h0] at h
        | false =>
          simp only [hp, h0, Bool.false_eq_true, if_false, Except.ok.injEq,
            Prod.mk.injEq] at h
          obtain ⟨h1, -⟩ := h
          rw [← h1]
          rfl

/-- A successful combined validation validates the order type and validates
the price against that validated order type. -/
theorem vop_ok_components (s sd t q : String) (p : Option String)
    (vs vd vt : String) (vq : PyFloat) (vp : Option PyFloat)
    (h : validate_order_params s sd t q p = .ok (vs, vd, vt, vq, vp)) :
    validate_order_type t = .ok vt ∧ ∃ w, validate_price p vt = .ok (vp, w) := by
  unfold validate_order_params at h
  cases h1 : validate_symbol s with
  | error e => rw [h1] at h; simp at h
  | ok a =>
    rw [h1] at h
    cases h2 : validate_side sd with
    | error e => rw [h2] at h; simp at h
    | ok b =>
      rw [h2] at h
      cases h3 : validate_order_type t with
      | error e => rw [h3] at h; simp at h
      | ok c =>
        rw [h3] at h
        cases h4 : validate_quantity q with
        | error e => rw [h4] at h; simp at h
        | ok d =>
          rw [h4] at h
          dsimp only at h
          cases h5 : validate_price p c with
          | error e => rw [h5] at h; simp at h
          | ok pr =>
            rw [h5] at h
            dsimp only at h
            simp only [Except.ok.injEq, Prod.mk.injEq] at h
            obtain ⟨-, -, hc, -, hp⟩ := h
            subst hc
            exact ⟨rfl, pr.2, by rw [← hp]; exact h5⟩

/-- C10: the client's order placement raises the LIMIT-price ValueError
exactly when the order type is `LIMIT` and the price is absent; and no
argument tuple produced by a successful combined validation can reach that
branch, so orchestrated placement after validation never hits it. -/
theorem limit_price_guard :
    (∀ (sym sd t : String) (q : PyFloat) (pr : Option PyFloat) (tif : String),
      clientPlaceOrder sym sd t q pr tif =
          .error (.valueError "Price is required for LIMIT orders") ↔
        (t = "LIMIT" ∧ pr = none))
  ∧ (∀ (s0 sd0 t0 q0 : String) (p0 : Option String) (vs vd vt : String)
      (vq : PyFloat) (vp : Option PyFloat) (tif : String),
      validate_order_params s0 sd0 t0 q0 p0 = .ok (vs, vd, vt, vq, vp) →
      clientPlaceOrder vs vd vt vq vp tif ≠
        .error (.valueError "Price is required for LIMIT orders")) := by
  constructor
  · intro sym sd t q pr tif
    constructor
    · intro h
      unfold clientPlaceOrder at h
      by_cases ht : t = "LIMIT"
      · rw [if_pos ht] at h
        cases pr with
        | none => exact ⟨ht, rfl⟩
        | some x => simp at h
      · rw [if_neg ht] at h
        simp at h
    · rintro ⟨ht, hpr⟩
      subst ht
      subst hpr
      rfl
  · intro s0 sd0 t0 q0 p0 vs vd vt vq vp tif h
    obtain ⟨htype, w, hprice⟩ := vop_ok_components s0 sd0 t0 q0 p0 vs vd vt vq vp h
    rcases validate_order_type_cases t0 vt htype with hm | hl
    · subst hm
      simp [clientPlaceOrder]
    · subst hl
      have hsome := validate_price_limit_some p0 vp w hprice
      cases hvp : vp with
      | none => rw [hvp] at hsome; simp at hsome
      | some x =>
        subst hvp
        simp [clientPlaceOrder]

/-- C10 witness: a concrete validated LIMIT order, and the guard not firing
on its validated fields. -/
theorem limit_price_guard_witness :
    validate_order_params "ethusdt" "SELL" "LIMIT" "0.01" (some "5000") =
      .ok ("ETHUSDT", "SELL", "LIMIT",
        .finite (mkRat 5764607523034235 576460752303423488),
        some (.finite (mkRat 5000 1)))
  ∧ clientPlaceOrder "ETHUSDT" "SELL" "LIMIT"
      (.finite (mkRat 5764607523034235 576460752303423488))
      (some (.finite (mkRat 5000 1))) "GTC" ≠
      .error (.valueError "Price is required for LIMIT orders") :=
  ⟨by decide,
   limit_price_guard.2 "ethusdt" "SELL" "LIMIT" "0.01" (some "5000")
     "ETHUSDT" "SELL" "LIMIT" (.finite (mkRat 5764607523034235 576460752303423488))
     (some (.finite (mkRat 5000 1))) "GTC" (by decide)⟩

end CryptoBot
